import Mathlib

/-!
Verification development for the Baza AI chat client.

The repository contains two generations of the App component:

* `src/unnamed/part_000` — the orchestrator with the full message
  lifecycle state machine (`handleSendMessage` with a pending model
  placeholder, streaming chunks, retry, regenerate), typed against
  `ChatMessage` with `status : pending | error | complete`.
  It is embedded in namespace `Baza`.
* `src/App.tsx` — an alternate variant whose `handleSend` guard checks
  the in-flight flag, has no message status, and on failure appends an
  error-text model message. It is embedded in namespace `AppTsx`.

The persistence hook `src/src/hooks/useChatHistory.ts` (localStorage
load/save, `addMessage`) is embedded in namespace `Store`, together
with a JSON value model for the serialize/parse boundary.
-/

/-- The JavaScript `String.prototype.trim`: strip leading and trailing
whitespace. The handlers call it on the message text in their guards,
and the `src/App.tsx` variant also stores the trimmed text. -/
def jsTrim (s : String) : String :=
  ⟨((s.data.dropWhile Char.isWhitespace).reverse.dropWhile
      Char.isWhitespace).reverse⟩

namespace Baza

/-- Message roles, from `types.ts`: `role: 'user' | 'model'`. -/
inductive Role where
  | user
  | model
deriving DecidableEq, Repr

/-- Message status, from `types.ts`: `status?: 'pending' | 'error' | 'complete'`. -/
inductive Status where
  | pending
  | error
  | complete
deriving DecidableEq, Repr

/-- `ChatFile` from `types.ts`: name, MIME type, base64 data url. -/
structure ChatFile where
  name : String
  type : String
  dataUrl : String
deriving DecidableEq, Repr

/-- `GroundingChunk` from `types.ts` (the nested `web` record flattened:
it has exactly the fields `uri` and `title`). -/
structure GroundingChunk where
  uri : String
  title : String
deriving DecidableEq, Repr

/-- `ChatMessage` from `types.ts`. The `status` and `groundingChunks`
fields are optional in the TypeScript interface, hence `Option`. -/
structure ChatMessage where
  id : String
  role : Role
  text : String
  file : Option ChatFile := none
  timestamp : Nat
  status : Option Status := none
  groundingChunks : Option (List GroundingChunk) := none
deriving DecidableEq, Repr

/-- `ChatSession` from `types.ts`. The Gemini `history` entries are
opaque to the orchestrator; they are modelled as strings. -/
structure ChatSession where
  id : String
  title : String
  messages : List ChatMessage
  history : List String
  createdAt : Nat
deriving DecidableEq, Repr

/-- The user message constructed in `handleSendMessage` (part_000 lines
66-74): fresh or retried id, role user, the sent text and file, status
complete. -/
def mkUserMessage (uid : String) (text : String) (file : Option ChatFile)
    (now : Nat) : ChatMessage :=
  { id := uid, role := .user, text := text, file := file,
    timestamp := now, status := some .complete }

/-- The model placeholder constructed in `handleSendMessage` (part_000
lines 76-83): fresh id, role model, empty text, status pending. -/
def mkModelPlaceholder (mid : String) (now : Nat) : ChatMessage :=
  { id := mid, role := .model, text := "",
    timestamp := now, status := some .pending }

/-- The optimistic update of `handleSendMessage` (part_000 lines 85-93):
when retrying, first drop the message with the retried id, then append
the user message (reusing the retried id when present) and the model
placeholder. -/
def handleSendMessageAppend (text : String) (file : Option ChatFile)
    (retryId : Option String) (uid mid : String) (now : Nat)
    (msgs : List ChatMessage) : List ChatMessage :=
  let base := match retryId with
    | some rid => msgs.filter (fun m => m.id ≠ rid)
    | none => msgs
  base ++ [mkUserMessage (retryId.getD uid) text file now, mkModelPlaceholder mid now]

/-- `handleStreamChunk` (part_000 lines 104-112): replace the text of the
message with the placeholder id by the chunk text, keeping status
pending; every other message is mapped to itself. -/
def handleStreamChunk (mid : String) (t : String)
    (msgs : List ChatMessage) : List ChatMessage :=
  msgs.map (fun m =>
    if m.id = mid then { m with text := t, status := some .pending } else m)

/-- The completion update of `handleSendMessage` (part_000 lines
116-123): set the final response text, status complete, a fresh
timestamp and the grounding chunks on the placeholder. -/
def completeUpdate (mid : String) (finalText : String)
    (gc : Option (List GroundingChunk)) (now : Nat)
    (msgs : List ChatMessage) : List ChatMessage :=
  msgs.map (fun m =>
    if m.id = mid then
      { m with text := finalText, status := some .complete,
               timestamp := now, groundingChunks := gc }
    else m)

/-- The catch-block update of `handleSendMessage` (part_000 lines
125-133): mark the user message error, then drop the model placeholder. -/
def errorUpdate (uid mid : String) (msgs : List ChatMessage) : List ChatMessage :=
  (msgs.map (fun m =>
    if m.id = uid then { m with status := some .error } else m)).filter
    (fun m => m.id ≠ mid)

/-- `[...currentSession.messages].reverse().find(m => m.role === 'user')`
from `handleRegenerate` (part_000 line 152). -/
def lastUserMessage (msgs : List ChatMessage) : Option ChatMessage :=
  msgs.reverse.find? (fun m => m.role = .user)

/-- The removal step of `handleRegenerate` (part_000 lines 155-157): keep
a message unless it is a model message whose id equals the id of the
final message of the session. -/
def regenRemove (msgs : List ChatMessage) : List ChatMessage :=
  match msgs.getLast? with
  | none => msgs
  | some last => msgs.filter (fun m => m.role ≠ .model ∨ m.id ≠ last.id)

/-- `handleRegenerate` (part_000 lines 150-160): a no-op while a send is
in flight; otherwise, if some user message exists, remove per
`regenRemove` and replay the last user message through
`handleSendMessage` (fresh user id — no retry id is passed), whose guard
can still reject empty input. -/
def handleRegenerate (isSending : Bool) (msgs : List ChatMessage)
    (uid mid : String) (now : Nat) : List ChatMessage :=
  if isSending then msgs
  else
    match lastUserMessage msgs with
    | none => msgs
    | some lu =>
      let removed := regenRemove msgs
      if jsTrim lu.text = "" ∧ lu.file = none then removed
      else handleSendMessageAppend lu.text lu.file none uid mid now removed

/-- `handleRetry` (part_000 lines 143-148) composed with the synchronous
phase of `handleSendMessage`: find the message with the given id and
re-run the send flow with that id as the retry id. The
`handleSendMessage` guard can still reject empty input. -/
def handleRetry (messageId : String) (msgs : List ChatMessage)
    (uid mid : String) (now : Nat) : List ChatMessage :=
  match msgs.find? (fun m => m.id = messageId) with
  | none => msgs
  | some m =>
    if jsTrim m.text = "" ∧ m.file = none then msgs
    else handleSendMessageAppend m.text m.file (some messageId) uid mid now msgs

/-- Modelled from the spec: the `useChatHistory` hook used by part_000
(exporting `currentChatId`, `currentSession`, `updateChat`) is not under
`src/`; per the spec, one session is current at a time and the store is
a map keyed by session id, so the current session is the session whose
id equals the current chat id. -/
def currentSessionOf (sessions : List ChatSession) (cid : Option String) :
    Option ChatSession :=
  cid.bind (fun c => sessions.find? (fun s => s.id = c))

/-- Modelled from the spec: `update(id, fn)` of the missing part_000
store hook applies the message-list transformer to the session with the
given id and leaves every other session unchanged. -/
def updateChatMessages (sessions : List ChatSession) (cid : String)
    (f : List ChatMessage → List ChatMessage) : List ChatSession :=
  sessions.map (fun s => if s.id = cid then { s with messages := f s.messages } else s)

/-- The synchronous phase of `handleSendMessage` (part_000 lines 61-99)
at the session-list level: the guard (line 62) rejects empty input, a
missing current chat id, or a missing current session, leaving the
session list and the in-flight flag unchanged; otherwise the optimistic
update is applied to the current session and the in-flight flag is set.
Note the guard does not consult the in-flight flag. -/
def handleSendMessageSync (sessions : List ChatSession) (cid : Option String)
    (isSending : Bool) (text : String) (file : Option ChatFile)
    (retryId : Option String) (uid mid : String) (now : Nat) :
    List ChatSession × Bool :=
  if (jsTrim text = "" ∧ file = none) ∨ cid = none ∨ currentSessionOf sessions cid = none
  then (sessions, isSending)
  else
    match cid with
    | none => (sessions, isSending)
    | some c =>
      (updateChatMessages sessions c
        (handleSendMessageAppend text file retryId uid mid now), true)

/-- The observable per-session state of the orchestrator: the message
list of the current session, the `isSending` flag, and the identifier
pairs (user message id, placeholder id) of the remote calls still in
flight (the code never cancels an outstanding call; its callbacks keep
mutating state when it resolves). -/
structure AppState where
  messages : List ChatMessage
  isSending : Bool
  inflight : List (String × String)
deriving DecidableEq, Repr

/-- One orchestrator event, exactly as the part_000 handlers permit it.
Fresh-uuid side conditions state that `uuidv4()` never collides with an
id already present. Note that neither `send` nor `retry` requires
`isSending = false`: the guard of `handleSendMessage` (line 62) does not
consult the flag, and `handleRetry`/`handleSuggestedQuestionClick` call
it unconditionally. Only `handleRegenerate` checks the flag. -/
inductive Step : AppState → AppState → Prop where
  | send (s : AppState) (text : String) (file : Option ChatFile)
      (uid mid : String) (now : Nat)
      (hguard : ¬(jsTrim text = "" ∧ file = none))
      (hu : uid ∉ s.messages.map (·.id)) (hm : mid ∉ s.messages.map (·.id))
      (hne : uid ≠ mid) :
      Step s ⟨handleSendMessageAppend text file none uid mid now s.messages,
              true, (uid, mid) :: s.inflight⟩
  | retry (s : AppState) (rid : String) (m : ChatMessage)
      (uid mid : String) (now : Nat)
      (hfind : s.messages.find? (fun m => m.id = rid) = some m)
      (hguard : ¬(jsTrim m.text = "" ∧ m.file = none))
      (hm : mid ∉ s.messages.map (·.id)) (hne : rid ≠ mid) :
      Step s ⟨handleSendMessageAppend m.text m.file (some rid) uid mid now s.messages,
              true, (rid, mid) :: s.inflight⟩
  | regenStart (s : AppState) (lu : ChatMessage) (uid mid : String) (now : Nat)
      (hsend : s.isSending = false)
      (hlu : lastUserMessage s.messages = some lu)
      (hguard : ¬(jsTrim lu.text = "" ∧ lu.file = none))
      (hu : uid ∉ s.messages.map (·.id)) (hm : mid ∉ s.messages.map (·.id))
      (hne : uid ≠ mid) :
      Step s ⟨handleSendMessageAppend lu.text lu.file none uid mid now
                (regenRemove s.messages),
              true, (uid, mid) :: s.inflight⟩
  | regenGuard (s : AppState) (lu : ChatMessage)
      (hsend : s.isSending = false)
      (hlu : lastUserMessage s.messages = some lu)
      (hguard : jsTrim lu.text = "" ∧ lu.file = none) :
      Step s ⟨regenRemove s.messages, s.isSending, s.inflight⟩
  | regenNoUser (s : AppState)
      (hsend : s.isSending = false)
      (hlu : lastUserMessage s.messages = none) :
      Step s s
  | regenBlocked (s : AppState) (hsend : s.isSending = true) :
      Step s s
  | chunk (s : AppState) (uid mid : String) (t : String)
      (hmem : (uid, mid) ∈ s.inflight) :
      Step s ⟨handleStreamChunk mid t s.messages, s.isSending, s.inflight⟩
  | success (s : AppState) (uid mid : String) (finalText : String)
      (gc : Option (List GroundingChunk)) (now : Nat)
      (hmem : (uid, mid) ∈ s.inflight) :
      Step s ⟨completeUpdate mid finalText gc now s.messages,
              false, s.inflight.erase (uid, mid)⟩
  | failure (s : AppState) (uid mid : String)
      (hmem : (uid, mid) ∈ s.inflight) (hne : uid ≠ mid) :
      Step s ⟨errorUpdate uid mid s.messages,
              false, s.inflight.erase (uid, mid)⟩

/-- The same events under the single-flight discipline the spec assumes:
no send, retry, or regenerate begins while a send is in flight (the
composer UI is disabled while `isSending`). Stream, success and failure
events are exactly those of `Step`. -/
inductive SStep : AppState → AppState → Prop where
  | send (s : AppState) (text : String) (file : Option ChatFile)
      (uid mid : String) (now : Nat)
      (hsend : s.isSending = false)
      (hguard : ¬(jsTrim text = "" ∧ file = none))
      (hu : uid ∉ s.messages.map (·.id)) (hm : mid ∉ s.messages.map (·.id))
      (hne : uid ≠ mid) :
      SStep s ⟨handleSendMessageAppend text file none uid mid now s.messages,
              true, (uid, mid) :: s.inflight⟩
  | retry (s : AppState) (rid : String) (m : ChatMessage)
      (uid mid : String) (now : Nat)
      (hsend : s.isSending = false)
      (hfind : s.messages.find? (fun m => m.id = rid) = some m)
      (hguard : ¬(jsTrim m.text = "" ∧ m.file = none))
      (hm : mid ∉ s.messages.map (·.id)) (hne : rid ≠ mid) :
      SStep s ⟨handleSendMessageAppend m.text m.file (some rid) uid mid now s.messages,
              true, (rid, mid) :: s.inflight⟩
  | regenStart (s : AppState) (lu : ChatMessage) (uid mid : String) (now : Nat)
      (hsend : s.isSending = false)
      (hlu : lastUserMessage s.messages = some lu)
      (hguard : ¬(jsTrim lu.text = "" ∧ lu.file = none))
      (hu : uid ∉ s.messages.map (·.id)) (hm : mid ∉ s.messages.map (·.id))
      (hne : uid ≠ mid) :
      SStep s ⟨handleSendMessageAppend lu.text lu.file none uid mid now
                (regenRemove s.messages),
              true, (uid, mid) :: s.inflight⟩
  | regenGuard (s : AppState) (lu : ChatMessage)
      (hsend : s.isSending = false)
      (hlu : lastUserMessage s.messages = some lu)
      (hguard : jsTrim lu.text = "" ∧ lu.file = none) :
      SStep s ⟨regenRemove s.messages, s.isSending, s.inflight⟩
  | regenNoUser (s : AppState)
      (hsend : s.isSending = false)
      (hlu : lastUserMessage s.messages = none) :
      SStep s s
  | chunk (s : AppState) (uid mid : String) (t : String)
      (hmem : (uid, mid) ∈ s.inflight) :
      SStep s ⟨handleStreamChunk mid t s.messages, s.isSending, s.inflight⟩
  | success (s : AppState) (uid mid : String) (finalText : String)
      (gc : Option (List GroundingChunk)) (now : Nat)
      (hmem : (uid, mid) ∈ s.inflight) :
      SStep s ⟨completeUpdate mid finalText gc now s.messages,
              false, s.inflight.erase (uid, mid)⟩
  | failure (s : AppState) (uid mid : String)
      (hmem : (uid, mid) ∈ s.inflight) (hne : uid ≠ mid) :
      SStep s ⟨errorUpdate uid mid s.messages,
              false, s.inflight.erase (uid, mid)⟩

/-- A freshly created session: empty message list, no send in flight. -/
def initState : AppState := ⟨[], false, []⟩

/-- States reachable from a fresh session under the single-flight
discipline. -/
def SReachable (s : AppState) : Prop :=
  Relation.ReflTransGen SStep initState s

/-- Number of messages whose status is pending. -/
def pendingCount (msgs : List ChatMessage) : Nat :=
  msgs.countP (fun m => m.status = some .pending)

end Baza

namespace AppTsx

/-- Message roles in the `src/App.tsx` variant: `'user' | 'model'`. -/
inductive Role where
  | user
  | model
deriving DecidableEq, Repr

/-- `ChatMessage` as `src/App.tsx` constructs it: id, role, `content`
text, timestamp, optional attached file (held opaquely: the variant
stores a `File` object and a preview URL). No status field exists. -/
structure ChatMessage where
  id : String
  role : Role
  content : String
  timestamp : Nat
  file : Option String := none
deriving DecidableEq, Repr

/-- The literal fallback reply appended by the catch block of
`handleSend` (`src/App.tsx` lines 110-116). -/
def errorText : String := "Sorry, there was an error processing your request."

/-- The synchronous phase of `handleSend` (`src/App.tsx` lines 73-89):
the guard rejects empty input or an already in-flight send; otherwise
the trimmed user message is appended. Returns the updated message list
and the new in-flight flag. -/
def handleSendSync (input : String) (file : Option String) (isSending : Bool)
    (msgs : List ChatMessage) (uid : String) (now : Nat) :
    List ChatMessage × Bool :=
  if (jsTrim input = "" ∧ file = none) ∨ isSending then (msgs, isSending)
  else (msgs ++ [⟨uid, .user, jsTrim input, now, file⟩], true)

/-- The success path of `handleSend` (`src/App.tsx` lines 100-107):
append the model reply to the already-updated message list. -/
def handleSendSuccess (updatedMessages : List ChatMessage)
    (aid : String) (response : String) (now : Nat) : List ChatMessage :=
  updatedMessages ++ [⟨aid, .model, response, now, none⟩]

/-- The catch block of `handleSend` (`src/App.tsx` lines 108-116):
append a model message with the fixed error text to the
already-updated message list. -/
def handleSendFailure (updatedMessages : List ChatMessage)
    (eid : String) (now : Nat) : List ChatMessage :=
  updatedMessages ++ [⟨eid, .model, errorText, now, none⟩]

end AppTsx

namespace Store

/-- Message roles in `src/src/hooks/useChatHistory.ts`:
`'user' | 'assistant'`. -/
inductive Role where
  | user
  | assistant
deriving DecidableEq, Repr

/-- `ChatMessage` from `src/src/hooks/useChatHistory.ts`. -/
structure ChatMessage where
  id : String
  role : Role
  content : String
  timestamp : Nat
deriving DecidableEq, Repr

/-- `ChatSession` from `src/src/hooks/useChatHistory.ts`. -/
structure ChatSession where
  id : String
  messages : List ChatMessage
  createdAt : Nat
  updatedAt : Nat
deriving DecidableEq, Repr

/-- A JSON value, the result type of the external `JSON.parse` and the
argument type of `JSON.stringify`. Numbers are the integer timestamps
the hook stores (all below 2 to the 53rd, hence exact in JSON). -/
inductive Json where
  | null
  | bool (b : Bool)
  | num (n : Nat)
  | str (s : String)
  | arr (elems : List Json)
  | obj (fields : List (String × Json))

/-- `addMessage` (`src/src/hooks/useChatHistory.ts` lines 57-75): build
a message with a fresh id and the current time, then map over the
sessions, appending it to the session with the given id and touching
its `updatedAt`; every other session is mapped to itself. -/
def addMessage (sessions : List ChatSession) (sessionId : String)
    (role : Role) (content : String) (freshId : String) (now : Nat) :
    List ChatSession :=
  sessions.map (fun s =>
    if s.id = sessionId then
      { s with messages := s.messages ++ [⟨freshId, role, content, now⟩],
               updatedAt := now }
    else s)

/-- Serialization of a role to its JSON string. -/
def roleToString : Role → String
  | .user => "user"
  | .assistant => "assistant"

/-- Deserialization of a role from its JSON string. -/
def roleOfString (s : String) : Option Role :=
  if s = "user" then some .user
  else if s = "assistant" then some .assistant
  else none

/-- JSON encoding of a stored message (the shape `JSON.stringify`
produces for the `ChatMessage` interface). -/
def encodeMessage (m : ChatMessage) : Json :=
  .obj [("id", .str m.id), ("role", .str (roleToString m.role)),
        ("content", .str m.content), ("timestamp", .num m.timestamp)]

/-- Field lookup in a JSON object. -/
def getField : List (String × Json) → String → Option Json
  | [], _ => none
  | (k, v) :: rest, key => if k = key then some v else getField rest key

/-- Read a JSON value as a string. -/
def asString : Json → Option String
  | .str s => some s
  | _ => none

/-- Read a JSON value as a number. -/
def asNum : Json → Option Nat
  | .num n => some n
  | _ => none

/-- JSON decoding of a stored message. -/
def decodeMessage : Json → Option ChatMessage
  | .obj fields => do
    let id ← (getField fields "id").bind asString
    let role ← ((getField fields "role").bind asString).bind roleOfString
    let content ← (getField fields "content").bind asString
    let timestamp ← (getField fields "timestamp").bind asNum
    pure ⟨id, role, content, timestamp⟩
  | _ => none

/-- JSON decoding of a list of stored messages. -/
def decodeMessages : List Json → Option (List ChatMessage)
  | [] => some []
  | j :: rest => do
    let m ← decodeMessage j
    let ms ← decodeMessages rest
    pure (m :: ms)

/-- JSON encoding of a stored session. -/
def encodeSession (s : ChatSession) : Json :=
  .obj [("id", .str s.id), ("messages", .arr (s.messages.map encodeMessage)),
        ("createdAt", .num s.createdAt), ("updatedAt", .num s.updatedAt)]

/-- JSON decoding of a stored session. -/
def decodeSession : Json → Option ChatSession
  | .obj fields => do
    let id ← (getField fields "id").bind asString
    let messages ← match getField fields "messages" with
      | some (.arr js) => decodeMessages js
      | _ => none
    let createdAt ← (getField fields "createdAt").bind asNum
    let updatedAt ← (getField fields "updatedAt").bind asNum
    pure ⟨id, messages, createdAt, updatedAt⟩
  | _ => none

/-- JSON decoding of a list of stored sessions. -/
def decodeSessionList : List Json → Option (List ChatSession)
  | [] => some []
  | j :: rest => do
    let s ← decodeSession j
    let ss ← decodeSessionList rest
    pure (s :: ss)

/-- JSON encoding of the full session list, the value written under the
`chat_history` storage key. -/
def encodeSessions (l : List ChatSession) : Json :=
  .arr (l.map encodeSession)

/-- JSON decoding of the full session list. -/
def decodeSessions : Json → Option (List ChatSession)
  | .arr js => decodeSessionList js
  | _ => none

/-- The observable outcomes of reading the storage key: the key is
absent, the stored text is not valid JSON (so the external `JSON.parse`
throws), or it parses to a JSON value. -/
inductive StoredCell where
  | missing
  | unparseable
  | parsed (j : Json)

/-- The load effect (`src/src/hooks/useChatHistory.ts` lines 24-34) on
the `sessions` state, which starts as the empty array. A missing key
leaves the initial state; a `JSON.parse` throw is caught (logged only),
leaving the initial state; a parsed value is passed to `setSessions`
verbatim — the hook performs no shape validation. The state is
therefore an arbitrary JSON value, as in the untyped host language. -/
def loadSessionsState : StoredCell → Json
  | .missing => .arr []
  | .unparseable => .arr []
  | .parsed j => j

/-- The save effect (`src/src/hooks/useChatHistory.ts` lines 37-43) on
the pair (stored cell, in-memory sessions): on success the serialized
sessions replace the cell; a `localStorage.setItem` throw is caught
(logged only), leaving the cell as it was. The in-memory sessions are
untouched either way, and no exception escapes. -/
def saveSessions (sessions : Json) (saveOk : Bool) (cell : StoredCell) :
    StoredCell × Json :=
  if saveOk then (.parsed sessions, sessions) else (cell, sessions)

end Store

namespace Baza

/-- An update keyed on a message id leaves a list alone when no element
carries that id. -/
lemma map_update_of_forall_ne (l : List ChatMessage) (x : String)
    (f : ChatMessage → ChatMessage) (h : ∀ m ∈ l, m.id ≠ x) :
    l.map (fun m => if m.id = x then f m else m) = l := by
  induction l with
  | nil => rfl
  | cons a t ih =>
    simp only [List.map_cons]
    rw [if_neg (h a (List.mem_cons_self a t)),
        ih (fun m hm => h m (List.mem_cons_of_mem a hm))]

/-- Filtering out a message id leaves a list alone when no element
carries that id. -/
lemma filter_ne_of_forall_ne (l : List ChatMessage) (x : String)
    (h : ∀ m ∈ l, m.id ≠ x) :
    l.filter (fun m => m.id ≠ x) = l := by
  rw [List.filter_eq_self]
  intro a ha
  simpa using h a ha

/-- No element of a list matches an id absent from its id projection. -/
lemma countP_id_eq_zero (l : List ChatMessage) (x : String)
    (h : x ∉ l.map (·.id)) : l.countP (fun m => m.id = x) = 0 := by
  rw [List.countP_eq_zero]
  intro m hm
  simp only [decide_eq_true_eq]
  intro he
  exact h (he ▸ List.mem_map_of_mem (·.id) hm)

end Baza

/-- C9: when no chat is selected — the current chat id is null or no
session matches it — the guard of `handleSendMessage` fires before any
state mutation: the session list is unchanged and the in-flight flag
keeps its prior value, for every message text, file and retry id. -/
theorem c9_send_noop_without_selected_chat (sessions : List Baza.ChatSession)
    (cid : Option String) (isSending : Bool) (text : String)
    (file : Option Baza.ChatFile) (retryId : Option String)
    (uid mid : String) (now : Nat)
    (h : cid = none ∨ Baza.currentSessionOf sessions cid = none) :
    Baza.handleSendMessageSync sessions cid isSending text file retryId uid mid now
      = (sessions, isSending) := by
  unfold Baza.handleSendMessageSync
  rcases h with h | h
  · rw [if_pos (Or.inr (Or.inl h))]
  · rw [if_pos (Or.inr (Or.inr h))]

/-- Witness for C9: a concrete send with a selected id that matches no
session leaves the empty session list and the flag untouched. -/
theorem c9_send_noop_without_selected_chat_witness :
    ((some "c" = (none : Option String)) ∨
        Baza.currentSessionOf [] (some "c") = none)
    ∧ Baza.handleSendMessageSync [] (some "c") false "Muraho" none none "u" "m" 0
        = ([], false) :=
  ⟨Or.inr rfl,
   c9_send_noop_without_selected_chat [] (some "c") false "Muraho" none none
     "u" "m" 0 (Or.inr rfl)⟩

/-- C10: `addMessage` on an id absent from the session list is the
identity; on a present id it appends exactly the one new message to the
matching session and touches only that session, whose other fields
(id, createdAt) persist through the record update. -/
theorem c10_addMessage_frame (sessions : List Store.ChatSession)
    (sid : String) (role : Store.Role) (content : String)
    (fid : String) (now : Nat) :
    (sid ∉ sessions.map (·.id) →
      Store.addMessage sessions sid role content fid now = sessions)
    ∧ (∀ (i : Nat) (s : Store.ChatSession), sessions[i]? = some s → s.id ≠ sid →
        (Store.addMessage sessions sid role content fid now)[i]? = some s)
    ∧ (∀ (i : Nat) (s : Store.ChatSession), sessions[i]? = some s → s.id = sid →
        (Store.addMessage sessions sid role content fid now)[i]? =
          some { s with messages := s.messages ++ [⟨fid, role, content, now⟩],
                        updatedAt := now }) := by
  refine ⟨?_, ?_, ?_⟩
  · intro h
    unfold Store.addMessage
    induction sessions with
    | nil => rfl
    | cons a t ih =>
      simp only [List.map_cons, List.mem_cons] at h
      push_neg at h
      simp only [List.map_cons]
      rw [if_neg (fun he => h.1 (by rw [he])), ih h.2]
  · intro i s hi hne
    unfold Store.addMessage
    rw [List.getElem?_map, hi]
    simp [if_neg hne]
  · intro i s hi he
    unfold Store.addMessage
    rw [List.getElem?_map, hi]
    simp [if_pos he]

/-- Witness for C10: both frame clauses evaluated on a concrete
two-session list. -/
theorem c10_addMessage_frame_witness :
    (("zz" ∉ ([⟨"a", [], 0, 0⟩, ⟨"b", [], 1, 1⟩] :
        List Store.ChatSession).map (·.id)) ∧
      Store.addMessage [⟨"a", [], 0, 0⟩, ⟨"b", [], 1, 1⟩] "zz"
        .user "hi" "f1" 5 = [⟨"a", [], 0, 0⟩, ⟨"b", [], 1, 1⟩])
    ∧ Store.addMessage [⟨"a", [], 0, 0⟩, ⟨"b", [], 1, 1⟩] "b"
        .user "hi" "f1" 5
        = [⟨"a", [], 0, 0⟩, ⟨"b", [⟨"f1", .user, "hi", 5⟩], 1, 5⟩] := by
  constructor
  · refine ⟨by decide, ?_⟩
    exact (c10_addMessage_frame [⟨"a", [], 0, 0⟩, ⟨"b", [], 1, 1⟩] "zz"
      .user "hi" "f1" 5).1 (by decide)
  · have h := (c10_addMessage_frame [⟨"a", [], 0, 0⟩, ⟨"b", [], 1, 1⟩] "b"
      .user "hi" "f1" 5).2.2 1 ⟨"b", [], 1, 1⟩ rfl rfl
    have h0 := (c10_addMessage_frame [⟨"a", [], 0, 0⟩, ⟨"b", [], 1, 1⟩] "b"
      .user "hi" "f1" 5).2.1 0 ⟨"a", [], 0, 0⟩ rfl (by decide)
    have hlen : (Store.addMessage [⟨"a", [], 0, 0⟩, ⟨"b", [], 1, 1⟩] "b"
        .user "hi" "f1" 5).length = 2 := by
      simp [Store.addMessage]
    match hm : Store.addMessage [⟨"a", [], 0, 0⟩, ⟨"b", [], 1, 1⟩] "b"
        .user "hi" "f1" 5 with
    | [x, y] =>
      rw [hm] at h h0
      simp at h h0
      rw [h, h0]
    | [] => rw [hm] at hlen; simp at hlen
    | [x] => rw [hm] at hlen; simp at hlen
    | x :: y :: z :: t => rw [hm] at hlen; simp at hlen

/-- C6: a delivered chunk with text `t` replaces the text of the
message carrying the placeholder id (last-chunk-wins, no
concatenation) and keeps its status pending, while every message with a
different id is untouched, position by position; the completion update
sets the final text and status complete on the placeholder and touches
no other message. Lengths are preserved throughout. -/
theorem c6_stream_chunk_replaces_placeholder (msgs : List Baza.ChatMessage)
    (mid t finalText : String) (gc : Option (List Baza.GroundingChunk))
    (now : Nat) :
    (Baza.handleStreamChunk mid t msgs).length = msgs.length
    ∧ (∀ (i : Nat) (m : Baza.ChatMessage), msgs[i]? = some m → m.id ≠ mid →
        (Baza.handleStreamChunk mid t msgs)[i]? = some m)
    ∧ (∀ (i : Nat) (m : Baza.ChatMessage), msgs[i]? = some m → m.id = mid →
        (Baza.handleStreamChunk mid t msgs)[i]? =
          some { m with text := t, status := some .pending })
    ∧ (∀ (i : Nat) (m : Baza.ChatMessage), msgs[i]? = some m → m.id ≠ mid →
        (Baza.completeUpdate mid finalText gc now msgs)[i]? = some m)
    ∧ (∀ (i : Nat) (m : Baza.ChatMessage), msgs[i]? = some m → m.id = mid →
        (Baza.completeUpdate mid finalText gc now msgs)[i]? =
          some { m with text := finalText, status := some .complete,
                        timestamp := now, groundingChunks := gc }) := by
  refine ⟨List.length_map msgs _, ?_, ?_, ?_, ?_⟩ <;>
    intro i m hi hid <;>
    simp only [Baza.handleStreamChunk, Baza.completeUpdate] <;>
    rw [List.getElem?_map, hi] <;>
    simp [hid]

/-- Witness for C6, on the scenario of the spec: the session holds the
user message "Muraho" and the empty pending placeholder; the chunk
"Mu" and then the chunk-and-completion text land in the placeholder
while the user message is untouched. -/
theorem c6_stream_chunk_replaces_placeholder_witness :
    (Baza.handleStreamChunk "m1" "Mu"
        [Baza.mkUserMessage "u1" "Muraho" none 0,
         Baza.mkModelPlaceholder "m1" 0])[0]?
      = some (Baza.mkUserMessage "u1" "Muraho" none 0)
    ∧ (Baza.handleStreamChunk "m1" "Mu"
        [Baza.mkUserMessage "u1" "Muraho" none 0,
         Baza.mkModelPlaceholder "m1" 0])[1]?
      = some { Baza.mkModelPlaceholder "m1" 0 with
               text := "Mu", status := some .pending }
    ∧ (Baza.completeUpdate "m1" "Muraho, nagufasha gute?" none 2
        [Baza.mkUserMessage "u1" "Muraho" none 0,
         Baza.mkModelPlaceholder "m1" 0])[1]?
      = some { Baza.mkModelPlaceholder "m1" 0 with
               text := "Muraho, nagufasha gute?", status := some .complete,
               timestamp := 2, groundingChunks := none } :=
  ⟨(c6_stream_chunk_replaces_placeholder
      [Baza.mkUserMessage "u1" "Muraho" none 0,
       Baza.mkModelPlaceholder "m1" 0] "m1" "Mu" "x" none 2).2.1 0
      (Baza.mkUserMessage "u1" "Muraho" none 0) rfl (by decide),
   (c6_stream_chunk_replaces_placeholder
      [Baza.mkUserMessage "u1" "Muraho" none 0,
       Baza.mkModelPlaceholder "m1" 0] "m1" "Mu" "x" none 2).2.2.1 1
      (Baza.mkModelPlaceholder "m1" 0) rfl rfl,
   (c6_stream_chunk_replaces_placeholder
      [Baza.mkUserMessage "u1" "Muraho" none 0,
       Baza.mkModelPlaceholder "m1" 0] "m1" "Mu" "Muraho, nagufasha gute?"
      none 2).2.2.2.2 1 (Baza.mkModelPlaceholder "m1" 0) rfl rfl⟩

namespace Store

/-- Role strings decode back to the role they encode. -/
lemma roleOfString_roleToString (r : Role) :
    roleOfString (roleToString r) = some r := by
  cases r <;> rfl

/-- A stored message decodes from its own encoding. -/
lemma decodeMessage_encodeMessage (m : ChatMessage) :
    decodeMessage (encodeMessage m) = some m := by
  cases m with
  | mk id role content timestamp =>
    simp [decodeMessage, encodeMessage, getField, asString, asNum,
          roleOfString_roleToString]

/-- A list of stored messages decodes from its elementwise encoding. -/
lemma decodeMessages_map (l : List ChatMessage) :
    decodeMessages (l.map encodeMessage) = some l := by
  induction l with
  | nil => rfl
  | cons m t ih =>
    simp [decodeMessages, decodeMessage_encodeMessage, ih]

/-- A stored session decodes from its own encoding. -/
lemma decodeSession_encodeSession (s : ChatSession) :
    decodeSession (encodeSession s) = some s := by
  cases s with
  | mk id messages createdAt updatedAt =>
    simp [decodeSession, encodeSession, getField, asString, asNum,
          decodeMessages_map]

/-- A list of stored sessions decodes from its elementwise encoding. -/
lemma decodeSessionList_map (l : List ChatSession) :
    decodeSessionList (l.map encodeSession) = some l := by
  induction l with
  | nil => rfl
  | cons s t ih =>
    simp [decodeSessionList, decodeSession_encodeSession, ih]

end Store

/-- C7: serializing any session list to the local-storage JSON record
and deserializing it back yields the identical ordered session list,
field for field. -/
theorem c7_session_list_round_trip (l : List Store.ChatSession) :
    Store.decodeSessions (Store.encodeSessions l) = some l := by
  simp [Store.decodeSessions, Store.encodeSessions,
        Store.decodeSessionList_map]

/-- Counterexample to C8: the stored text `\x7b\x7d` is a corrupt entry
(it is no serialized session list), yet `JSON.parse` accepts it and the
hook installs the parsed empty object verbatim — the loaded state is
not the empty session list and is not the encoding of any session
list, so a corrupt entry does not degrade to an empty session list. -/
theorem c8_counterexample_unvalidated_parse :
    Store.loadSessionsState (.parsed (.obj [])) ≠ Store.encodeSessions []
    ∧ Store.decodeSessions (Store.loadSessionsState (.parsed (.obj []))) = none :=
  ⟨fun h => Store.Json.noConfusion h, rfl⟩

/-- C8 as amended: the store never throws; a missing key and an
unparseable entry both degrade to the empty session list, and a failed
save leaves both the stored cell and the in-memory sessions unchanged —
but a parseable entry is installed verbatim with no shape validation,
so only unparseable corruption degrades to empty. -/
theorem c8_amended_storage_error_handling :
    Store.loadSessionsState .missing = Store.encodeSessions []
    ∧ Store.loadSessionsState .unparseable = Store.encodeSessions []
    ∧ (∀ (s : Store.Json) (cell : Store.StoredCell),
        Store.saveSessions s false cell = (cell, s))
    ∧ (∀ (j : Store.Json), Store.loadSessionsState (.parsed j) = j) :=
  ⟨rfl, rfl, fun _ _ => rfl, fun _ => rfl⟩

/-- C1 as amended, part_000 half: after the optimistic append of the
user message and the placeholder, the catch block of
`handleSendMessage` marks exactly the just-sent user message error and
drops the placeholder: the session holds the prior messages plus the
errored user message, the count is the prior count plus one, and every
model message of the result was already present before the send. -/
theorem c1_remote_failure_error_path (prev : List Baza.ChatMessage)
    (text : String) (file : Option Baza.ChatFile) (uid mid : String)
    (now : Nat)
    (hu : uid ∉ prev.map (·.id)) (hm : mid ∉ prev.map (·.id))
    (hne : uid ≠ mid) :
    Baza.errorUpdate uid mid
        (prev ++ [Baza.mkUserMessage uid text file now,
                  Baza.mkModelPlaceholder mid now])
      = prev ++ [{ Baza.mkUserMessage uid text file now with
                   status := some .error }]
    ∧ (Baza.errorUpdate uid mid
        (prev ++ [Baza.mkUserMessage uid text file now,
                  Baza.mkModelPlaceholder mid now])).length
      = prev.length + 1
    ∧ ∀ m ∈ Baza.errorUpdate uid mid
        (prev ++ [Baza.mkUserMessage uid text file now,
                  Baza.mkModelPlaceholder mid now]),
        m.role = .model → m ∈ prev := by
  have hu' : ∀ m ∈ prev, m.id ≠ uid := by
    intro m hmem he
    exact hu (he ▸ List.mem_map_of_mem (·.id) hmem)
  have hm' : ∀ m ∈ prev, m.id ≠ mid := by
    intro m hmem he
    exact hm (he ▸ List.mem_map_of_mem (·.id) hmem)
  have key : Baza.errorUpdate uid mid
      (prev ++ [Baza.mkUserMessage uid text file now,
                Baza.mkModelPlaceholder mid now])
      = prev ++ [{ Baza.mkUserMessage uid text file now with
                   status := some .error }] := by
    unfold Baza.errorUpdate
    rw [List.map_append, Baza.map_update_of_forall_ne prev uid _ hu',
        List.filter_append, Baza.filter_ne_of_forall_ne prev mid hm']
    simp [Baza.mkUserMessage, Baza.mkModelPlaceholder, hne, Ne.symm hne]
  refine ⟨key, ?_, ?_⟩
  · rw [key]; simp
  · intro m hmem hrole
    rw [key] at hmem
    rcases List.mem_append.mp hmem with h | h
    · exact h
    · simp only [List.mem_singleton] at h
      subst h
      simp [Baza.mkUserMessage] at hrole

/-- Witness for C1: a concrete failed send on an empty session leaves
exactly the errored user message. -/
theorem c1_remote_failure_error_path_witness :
    ("u1" ∉ ([] : List Baza.ChatMessage).map (·.id))
    ∧ Baza.errorUpdate "u1" "m1"
        ([] ++ [Baza.mkUserMessage "u1" "Muraho" none 0,
                Baza.mkModelPlaceholder "m1" 0])
      = [] ++ [{ Baza.mkUserMessage "u1" "Muraho" none 0 with
                 status := some .error }] :=
  ⟨by decide,
   (c1_remote_failure_error_path [] "Muraho" none "u1" "m1" 0
     (by decide) (by decide) (by decide)).1⟩

/-- Counterexample to C1: in the `src/App.tsx` variant it cites, a
rejected remote call appends a model message carrying the fixed error
text, so the session grows by two messages (user plus error reply), not
by one, and an error-text model message is appended. -/
theorem c1_counterexample_apptsx_error_reply :
    (AppTsx.handleSendFailure
        ((AppTsx.handleSendSync "Muraho" none false [] "u1" 0).1) "e1" 1).length
      = ([] : List AppTsx.ChatMessage).length + 2
    ∧ ∃ m ∈ AppTsx.handleSendFailure
        ((AppTsx.handleSendSync "Muraho" none false [] "u1" 0).1) "e1" 1,
        m.role = .model ∧ m.content = AppTsx.errorText := by
  refine ⟨?_, ⟨"e1", .model, AppTsx.errorText, 1, none⟩, ?_, rfl, rfl⟩
  · decide
  · decide

/-- C2 as amended: the in-flight flag does guard the `src/App.tsx`
`handleSend` (whose guard checks it directly) and the part_000
`handleRegenerate` (which returns immediately while sending) — both are
no-ops with the message list unchanged — but it does not guard the
part_000 `handleSendMessage` itself, so retry and suggested-question
clicks bypass it (see the counterexample). -/
theorem c2_inflight_guard_scope :
    (∀ (input : String) (file : Option String)
        (msgs : List AppTsx.ChatMessage) (uid : String) (now : Nat),
        AppTsx.handleSendSync input file true msgs uid now = (msgs, true))
    ∧ (∀ (msgs : List Baza.ChatMessage) (uid mid : String) (now : Nat),
        Baza.handleRegenerate true msgs uid mid now = msgs) := by
  constructor
  · intro input file msgs uid now
    unfold AppTsx.handleSendSync
    rw [if_pos (Or.inr rfl)]
  · intro msgs uid mid now
    unfold Baza.handleRegenerate
    rw [if_pos rfl]

/-- Counterexample to C2: from a fresh session, one send step reaches a
state whose in-flight flag is set; invoking send again from there — here
through retry, as `handleRetry` does unconditionally — is permitted by
the code and appends a user/model pair: the message count changes from
two to three, so the claimed no-op fails. -/
theorem c2_counterexample_retry_during_send :
    Baza.Step ⟨[], false, []⟩
      ⟨[Baza.mkUserMessage "u1" "hola" none 0, Baza.mkModelPlaceholder "m1" 0],
       true, [("u1", "m1")]⟩
    ∧ (Baza.AppState.mk
        [Baza.mkUserMessage "u1" "hola" none 0, Baza.mkModelPlaceholder "m1" 0]
        true [("u1", "m1")]).isSending = true
    ∧ Baza.Step
        ⟨[Baza.mkUserMessage "u1" "hola" none 0, Baza.mkModelPlaceholder "m1" 0],
         true, [("u1", "m1")]⟩
        ⟨[Baza.mkModelPlaceholder "m1" 0,
          Baza.mkUserMessage "u1" "hola" none 1,
          Baza.mkModelPlaceholder "m2" 1],
         true, [("u1", "m2"), ("u1", "m1")]⟩
    ∧ ([Baza.mkModelPlaceholder "m1" 0,
        Baza.mkUserMessage "u1" "hola" none 1,
        Baza.mkModelPlaceholder "m2" 1] : List Baza.ChatMessage).length
      ≠ ([Baza.mkUserMessage "u1" "hola" none 0,
          Baza.mkModelPlaceholder "m1" 0] : List Baza.ChatMessage).length := by
  refine ⟨?_, rfl, ?_, by decide⟩
  · exact Baza.Step.send ⟨[], false, []⟩ "hola" none "u1" "m1" 0
      (by decide) (by decide) (by decide) (by decide)
  · exact Baza.Step.retry
      ⟨[Baza.mkUserMessage "u1" "hola" none 0, Baza.mkModelPlaceholder "m1" 0],
       true, [("u1", "m1")]⟩
      "u1" (Baza.mkUserMessage "u1" "hola" none 0) "ux" "m2" 1
      (by decide) (by decide) (by decide) (by decide)

namespace Baza

/-- `regenRemove` removes exactly the final message when that message is
a model message and ids are distinct. -/
lemma regenRemove_concat_model (init : List ChatMessage) (last : ChatMessage)
    (hrole : last.role = .model)
    (hids : ∀ m ∈ init, m.id ≠ last.id) :
    regenRemove (init ++ [last]) = init := by
  have hred : regenRemove (init ++ [last])
      = (init ++ [last]).filter (fun m => m.role ≠ Role.model ∨ m.id ≠ last.id) := by
    unfold regenRemove
    rw [List.getLast?_concat]
  rw [hred, List.filter_append]
  have h1 : init.filter (fun m => m.role ≠ Role.model ∨ m.id ≠ last.id) = init := by
    rw [List.filter_eq_self]
    intro a ha
    simp [hids a ha]
  have h2 : [last].filter (fun m => m.role ≠ Role.model ∨ m.id ≠ last.id) = [] := by
    simp [List.filter, hrole]
  rw [h1, h2, List.append_nil]

end Baza

/-- C4 as amended: when the final message of the session is a model
message (ids distinct) and the last user message passes the send guard,
regenerate removes that final model message and then replays the last
user message through the full send flow, which appends a fresh copy of
the user message together with one new model placeholder — so the last
user message is duplicated, and the user-message count grows by one. A
model message that is not the final message of the session is never
removed. -/
theorem c4_regenerate_duplicates_user (msgs : List Baza.ChatMessage)
    (uid mid : String) (now : Nat) (last lu : Baza.ChatMessage)
    (hlast : msgs.getLast? = some last)
    (hrole : last.role = .model)
    (hnodup : (msgs.map (·.id)).Nodup)
    (hlu : Baza.lastUserMessage msgs = some lu)
    (hguard : ¬(jsTrim lu.text = "" ∧ lu.file = none)) :
    Baza.handleRegenerate false msgs uid mid now
      = msgs.dropLast ++ [Baza.mkUserMessage uid lu.text lu.file now,
                          Baza.mkModelPlaceholder mid now]
    ∧ (Baza.handleRegenerate false msgs uid mid now).countP
        (fun m => m.role = .user)
      = msgs.countP (fun m => m.role = .user) + 1 := by
  obtain ⟨init, rfl⟩ := List.getLast?_eq_some_iff.mp hlast
  have hids : ∀ m ∈ init, m.id ≠ last.id := by
    intro m hmem he
    rw [List.map_append, List.map_cons, List.map_nil] at hnodup
    rcases (List.nodup_append.mp hnodup) with ⟨-, -, hdisj⟩
    exact hdisj (List.mem_map_of_mem (·.id) hmem) (by simp [he])
  have hrem : Baza.regenRemove (init ++ [last]) = init :=
    Baza.regenRemove_concat_model init last hrole hids
  have hlu' : Baza.lastUserMessage (init ++ [last]) = some lu := hlu
  have key : Baza.handleRegenerate false (init ++ [last]) uid mid now
      = init ++ [Baza.mkUserMessage uid lu.text lu.file now,
                 Baza.mkModelPlaceholder mid now] := by
    unfold Baza.handleRegenerate
    rw [if_neg (by simp), hlu', hrem]
    show (if jsTrim lu.text = "" ∧ lu.file = none then init
          else Baza.handleSendMessageAppend lu.text lu.file none uid mid now init)
        = _
    rw [if_neg hguard]
    rfl
  have hdrop : (init ++ [last]).dropLast = init := List.dropLast_concat
  constructor
  · rw [key, hdrop]
  · rw [key]
    simp [List.countP_append, Baza.mkUserMessage, Baza.mkModelPlaceholder,
          List.countP_cons, hrole]

/-- Witness for C4: regenerating a session holding one user message and
one model reply removes the reply but appends a second copy of the user
message together with the new placeholder. -/
theorem c4_regenerate_duplicates_user_witness :
    Baza.handleRegenerate false
        [Baza.mkUserMessage "u1" "hello" none 0,
         ⟨"m1", .model, "yo", none, 1, some .complete, none⟩] "u2" "m2" 5
      = [Baza.mkUserMessage "u1" "hello" none 0]
        ++ [Baza.mkUserMessage "u2" "hello" none 5,
            Baza.mkModelPlaceholder "m2" 5] := by
  have h := (c4_regenerate_duplicates_user
    [Baza.mkUserMessage "u1" "hello" none 0,
     ⟨"m1", .model, "yo", none, 1, some .complete, none⟩] "u2" "m2" 5
    ⟨"m1", .model, "yo", none, 1, some .complete, none⟩
    (Baza.mkUserMessage "u1" "hello" none 0)
    rfl rfl (by decide) (by decide) (by decide)).1
  exact h

/-- Counterexample to C4: the claim says no additional user message is
appended, yet regenerating the two-message session above leaves two
user-role messages where there was one. -/
theorem c4_counterexample_extra_user_message :
    (Baza.handleRegenerate false
        [Baza.mkUserMessage "u1" "hello" none 0,
         ⟨"m1", .model, "yo", none, 1, some .complete, none⟩] "u2" "m2" 5).countP
        (fun m => m.role = .user) = 2
    ∧ ([Baza.mkUserMessage "u1" "hello" none 0,
        ⟨"m1", .model, "yo", none, 1, some .complete, none⟩] :
          List Baza.ChatMessage).countP (fun m => m.role = .user) = 1 := by
  decide

/-- C5: retrying a failed user message with id `rid` (ids distinct, the
message passing the send guard, fresh placeholder id) re-runs the send
flow reusing `rid`: the message is not duplicated — the user-message
count is preserved — the retried id persists in the session, the list
grows by exactly the one model reply, and that fresh model placeholder
sits at the end of the session. -/
theorem c5_retry_replaces_in_place (msgs : List Baza.ChatMessage)
    (rid uid mid : String) (now : Nat) (m : Baza.ChatMessage)
    (hfind : msgs.find? (fun x => x.id = rid) = some m)
    (hrole : m.role = .user)
    (hguard : ¬(jsTrim m.text = "" ∧ m.file = none))
    (hnodup : (msgs.map (·.id)).Nodup)
    (hmid : mid ∉ msgs.map (·.id)) :
    (Baza.handleRetry rid msgs uid mid now).countP (fun x => x.role = .user)
      = msgs.countP (fun x => x.role = .user)
    ∧ rid ∈ (Baza.handleRetry rid msgs uid mid now).map (·.id)
    ∧ (Baza.handleRetry rid msgs uid mid now).length = msgs.length + 1
    ∧ (Baza.handleRetry rid msgs uid mid now).getLast?
        = some (Baza.mkModelPlaceholder mid now) := by
  have hid : m.id = rid := by
    have := List.find?_some hfind
    simpa using this
  have hmem : m ∈ msgs := List.mem_of_find?_eq_some hfind
  obtain ⟨l1, l2, hdecomp⟩ := List.append_of_mem hmem
  subst hdecomp
  have hnotmem : m.id ∉ l1.map (·.id) ∧ m.id ∉ l2.map (·.id) := by
    rw [List.map_append, List.map_cons] at hnodup
    rcases List.nodup_append.mp hnodup with ⟨-, h2, hdisj⟩
    exact ⟨fun hin => hdisj hin (List.mem_cons_self _ _),
           (List.nodup_cons.mp h2).1⟩
  have hne1 : ∀ x ∈ l1, x.id ≠ rid := by
    intro x hx he
    exact hnotmem.1 (hid ▸ he ▸ List.mem_map_of_mem (·.id) hx)
  have hne2 : ∀ x ∈ l2, x.id ≠ rid := by
    intro x hx he
    exact hnotmem.2 (hid ▸ he ▸ List.mem_map_of_mem (·.id) hx)
  have hfilter : (l1 ++ m :: l2).filter (fun x => x.id ≠ rid) = l1 ++ l2 := by
    rw [List.filter_append, Baza.filter_ne_of_forall_ne l1 rid hne1,
        List.filter_cons, if_neg (by simp [hid]),
        Baza.filter_ne_of_forall_ne l2 rid hne2]
  have hresult : Baza.handleRetry rid (l1 ++ m :: l2) uid mid now
      = (l1 ++ l2) ++ [Baza.mkUserMessage rid m.text m.file now,
                       Baza.mkModelPlaceholder mid now] := by
    unfold Baza.handleRetry
    rw [hfind]
    show (if jsTrim m.text = "" ∧ m.file = none then l1 ++ m :: l2
          else Baza.handleSendMessageAppend m.text m.file (some rid) uid mid now
            (l1 ++ m :: l2)) = _
    rw [if_neg hguard]
    show ((l1 ++ m :: l2).filter (fun x => x.id ≠ rid))
        ++ [Baza.mkUserMessage rid m.text m.file now,
            Baza.mkModelPlaceholder mid now]
        = _
    rw [hfilter]
  refine ⟨?_, ?_, ?_, ?_⟩
  · rw [hresult]
    simp [List.countP_append, List.countP_cons, hrole,
          Baza.mkUserMessage, Baza.mkModelPlaceholder]
    try omega
  · rw [hresult]
    simp [Baza.mkUserMessage]
  · rw [hresult]
    simp
    omega
  · rw [hresult,
        show [Baza.mkUserMessage rid m.text m.file now,
              Baza.mkModelPlaceholder mid now]
          = [Baza.mkUserMessage rid m.text m.file now]
            ++ [Baza.mkModelPlaceholder mid now] from rfl,
        ← List.append_assoc, List.getLast?_concat]

/-- Witness for C5: retrying the lone failed user message of a session
preserves the user count, keeps the id, and appends the placeholder. -/
theorem c5_retry_replaces_in_place_witness :
    (Baza.handleRetry "u1"
        [⟨"u1", .user, "hola", none, 0, some .error, none⟩] "ux" "m2" 5).countP
        (fun x => x.role = .user)
      = ([⟨"u1", .user, "hola", none, 0, some .error, none⟩] :
          List Baza.ChatMessage).countP (fun x => x.role = .user)
    ∧ "u1" ∈ (Baza.handleRetry "u1"
        [⟨"u1", .user, "hola", none, 0, some .error, none⟩] "ux" "m2" 5).map (·.id)
    ∧ (Baza.handleRetry "u1"
        [⟨"u1", .user, "hola", none, 0, some .error, none⟩] "ux" "m2" 5).length
      = ([⟨"u1", .user, "hola", none, 0, some .error, none⟩] :
          List Baza.ChatMessage).length + 1
    ∧ (Baza.handleRetry "u1"
        [⟨"u1", .user, "hola", none, 0, some .error, none⟩] "ux" "m2" 5).getLast?
      = some (Baza.mkModelPlaceholder "m2" 5) :=
  c5_retry_replaces_in_place
    [⟨"u1", .user, "hola", none, 0, some .error, none⟩] "u1" "ux" "m2" 5
    ⟨"u1", .user, "hola", none, 0, some .error, none⟩
    rfl rfl (by decide) (by decide) (by decide)

namespace Baza

/-- The single-flight invariant over orchestrator states: with no call
in flight the flag is down and nothing is pending; with exactly one
call in flight the flag is up, at most one message carries the
placeholder id, every message with that id is a model message, and
every pending message carries that id. More than one call in flight
never arises under the single-flight discipline. -/
def Inv (s : AppState) : Prop :=
  match s.inflight with
  | [] => s.isSending = false ∧ ∀ m ∈ s.messages, m.status ≠ some Status.pending
  | [(_, mid)] => s.isSending = true
      ∧ s.messages.countP (fun m => m.id = mid) ≤ 1
      ∧ (∀ m ∈ s.messages, m.id = mid → m.role = Role.model)
      ∧ (∀ m ∈ s.messages, m.status = some Status.pending → m.id = mid)
  | _ :: _ :: _ => False

/-- With the flag down, an invariant state has no call in flight and no
pending message. -/
lemma inv_no_inflight (s : AppState) (hinv : Inv s)
    (hsend : s.isSending = false) :
    s.inflight = [] ∧ ∀ m ∈ s.messages, m.status ≠ some Status.pending := by
  unfold Inv at hinv
  rcases hs : s.inflight with _ | ⟨⟨u, mid⟩, _ | ⟨q, rest⟩⟩ <;> rw [hs] at hinv
  · exact ⟨rfl, hinv.2⟩
  · rw [hinv.1] at hsend
    cases hsend
  · exact hinv.elim

/-- An invariant state containing an in-flight pair has exactly that
pair in flight, and the placeholder-id clauses hold for its id. -/
lemma inv_of_mem_inflight (s : AppState) (hinv : Inv s) (uid mid : String)
    (hmem : (uid, mid) ∈ s.inflight) :
    s.inflight = [(uid, mid)] ∧ s.isSending = true
    ∧ s.messages.countP (fun m => m.id = mid) ≤ 1
    ∧ (∀ m ∈ s.messages, m.id = mid → m.role = Role.model)
    ∧ (∀ m ∈ s.messages, m.status = some Status.pending → m.id = mid) := by
  unfold Inv at hinv
  rcases hs : s.inflight with _ | ⟨⟨u, mid0⟩, _ | ⟨q, rest⟩⟩ <;> rw [hs] at hinv
  · rw [hs] at hmem
    cases hmem
  · rw [hs] at hmem
    simp only [List.mem_singleton, Prod.mk.injEq] at hmem
    obtain ⟨rfl, rfl⟩ := hmem
    exact ⟨rfl, hinv⟩
  · exact hinv.elim

/-- `regenRemove` never adds messages: its result is a sublist. -/
lemma regenRemove_sublist (msgs : List ChatMessage) :
    (regenRemove msgs).Sublist msgs := by
  unfold regenRemove
  rcases msgs.getLast? with _ | last
  · exact List.Sublist.refl _
  · exact List.filter_sublist _

/-- A streaming chunk never changes which ids occur how often. -/
lemma chunk_countP_id (mid t x : String) (msgs : List ChatMessage) :
    (handleStreamChunk mid t msgs).countP (fun m => m.id = x)
      = msgs.countP (fun m => m.id = x) := by
  unfold handleStreamChunk
  induction msgs with
  | nil => rfl
  | cons a l ih =>
    by_cases ha : a.id = mid <;>
      simp [List.countP_cons, ha, ih]

/-- The placeholder-id clauses of the invariant hold after the
optimistic append of a user message and a fresh placeholder onto any
base drawn from a pending-free message list. -/
lemma append_pair_clauses (msgs base : List ChatMessage) (uidx mid : String)
    (text : String) (file : Option ChatFile) (now : Nat)
    (hsub : base.Sublist msgs)
    (hm : mid ∉ msgs.map (·.id))
    (hne : uidx ≠ mid)
    (hnp : ∀ m ∈ msgs, m.status ≠ some Status.pending) :
    (base ++ [mkUserMessage uidx text file now,
              mkModelPlaceholder mid now]).countP (fun m => m.id = mid) ≤ 1
    ∧ (∀ m ∈ base ++ [mkUserMessage uidx text file now,
                      mkModelPlaceholder mid now],
        m.id = mid → m.role = Role.model)
    ∧ (∀ m ∈ base ++ [mkUserMessage uidx text file now,
                      mkModelPlaceholder mid now],
        m.status = some Status.pending → m.id = mid) := by
  have hbase0 : base.countP (fun m => m.id = mid) = 0 :=
    Nat.le_zero.mp (countP_id_eq_zero msgs mid hm ▸ hsub.countP_le _)
  have hbase_ne : ∀ m ∈ base, m.id ≠ mid := by
    intro m hmm he
    exact hm (he ▸ List.mem_map_of_mem (·.id) (hsub.subset hmm))
  refine ⟨?_, ?_, ?_⟩
  · rw [List.countP_append, hbase0]
    simp [List.countP_cons, mkUserMessage, mkModelPlaceholder, hne]
  · intro m hmm hid
    rcases List.mem_append.mp hmm with h | h
    · exact absurd hid (hbase_ne m h)
    · rcases h with _ | ⟨_, h⟩
      · exact absurd hid (by simp [mkUserMessage, hne])
      · rcases h with _ | ⟨_, h⟩
        · rfl
        · cases h
  · intro m hmm hst
    rcases List.mem_append.mp hmm with h | h
    · exact absurd hst (hnp m (hsub.subset h))
    · rcases h with _ | ⟨_, h⟩
      · simp [mkUserMessage] at hst
      · rcases h with _ | ⟨_, h⟩
        · rfl
        · cases h

end Baza

namespace Baza

/-- Every single-flight step preserves the invariant. -/
lemma sstep_preserves_inv (s s' : AppState) (hstep : SStep s s')
    (hinv : Inv s) : Inv s' := by
  cases hstep with
  | send text file uid mid now hsend hguard hu hm hne =>
    obtain ⟨hinf, hnp⟩ := inv_no_inflight s hinv hsend
    have hp := append_pair_clauses s.messages s.messages uid mid text file now
      (List.Sublist.refl _) hm hne hnp
    unfold Inv
    rw [hinf]
    exact ⟨rfl, hp.1, hp.2.1, hp.2.2⟩
  | retry rid m uid mid now hsend hfind hguard hm hne =>
    obtain ⟨hinf, hnp⟩ := inv_no_inflight s hinv hsend
    have hp := append_pair_clauses s.messages
      (s.messages.filter (fun x => x.id ≠ rid)) rid mid m.text m.file now
      (List.filter_sublist _) hm hne hnp
    unfold Inv
    rw [hinf]
    exact ⟨rfl, hp.1, hp.2.1, hp.2.2⟩
  | regenStart lu uid mid now hsend hlu hguard hu hm hne =>
    obtain ⟨hinf, hnp⟩ := inv_no_inflight s hinv hsend
    have hp := append_pair_clauses s.messages (regenRemove s.messages)
      uid mid lu.text lu.file now (regenRemove_sublist _) hm hne hnp
    unfold Inv
    rw [hinf]
    exact ⟨rfl, hp.1, hp.2.1, hp.2.2⟩
  | regenGuard lu hsend hlu hguard =>
    obtain ⟨hinf, hnp⟩ := inv_no_inflight s hinv hsend
    unfold Inv
    rw [hinf]
    exact ⟨hsend, fun m hmm => hnp m ((regenRemove_sublist _).subset hmm)⟩
  | regenNoUser hsend hlu => exact hinv
  | chunk uid mid t hmem =>
    obtain ⟨hinf, hsending, hcount, hrole, hpend⟩ :=
      inv_of_mem_inflight s hinv uid mid hmem
    unfold Inv
    rw [hinf]
    refine ⟨hsending, ?_, ?_, ?_⟩
    · rw [chunk_countP_id]
      exact hcount
    · intro m' hm' hid
      unfold handleStreamChunk at hm'
      obtain ⟨m, hmm, rfl⟩ := List.mem_map.mp hm'
      by_cases ha : m.id = mid
      · rw [if_pos ha]
        exact hrole m hmm ha
      · rw [if_neg ha] at hid ⊢
        exact hrole m hmm hid
    · intro m' hm' hst
      unfold handleStreamChunk at hm'
      obtain ⟨m, hmm, rfl⟩ := List.mem_map.mp hm'
      by_cases ha : m.id = mid
      · rw [if_pos ha]
        exact ha
      · rw [if_neg ha] at hst ⊢
        exact hpend m hmm hst
  | success uid mid finalText gc now hmem =>
    obtain ⟨hinf, hsending, hcount, hrole, hpend⟩ :=
      inv_of_mem_inflight s hinv uid mid hmem
    unfold Inv
    rw [hinf, List.erase_cons_head]
    refine ⟨rfl, ?_⟩
    intro m' hm' hst
    unfold completeUpdate at hm'
    obtain ⟨m, hmm, rfl⟩ := List.mem_map.mp hm'
    by_cases ha : m.id = mid
    · rw [if_pos ha] at hst
      simp at hst
    · rw [if_neg ha] at hst
      exact ha (hpend m hmm hst)
  | failure uid mid hmem hne =>
    obtain ⟨hinf, hsending, hcount, hrole, hpend⟩ :=
      inv_of_mem_inflight s hinv uid mid hmem
    unfold Inv
    rw [hinf, List.erase_cons_head]
    refine ⟨rfl, ?_⟩
    intro m' hm' hst
    unfold errorUpdate at hm'
    rw [List.mem_filter] at hm'
    obtain ⟨hm'', hne'⟩ := hm'
    obtain ⟨m, hmm, rfl⟩ := List.mem_map.mp hm''
    by_cases ha : m.id = uid
    · rw [if_pos ha] at hst
      simp at hst
    · rw [if_neg ha] at hst hne'
      simp only [decide_eq_true_eq] at hne'
      exact hne' (hpend m hmm hst)

/-- Every state reachable from a fresh session under the single-flight
discipline satisfies the invariant. -/
lemma sreachable_inv (s : AppState) (h : SReachable s) : Inv s := by
  unfold SReachable at h
  induction h with
  | refl =>
    unfold Inv initState
    exact ⟨rfl, by intro m hm; cases hm⟩
  | tail hsteps hstep ih => exact sstep_preserves_inv _ _ hstep ih

end Baza

/-- C3 as amended: in every state reachable from a fresh session under
the single-flight discipline — no send, retry, or regenerate is begun
while a send is in flight — at most one message of the session is
pending, and a pending message is a model message whose id belongs to a
remote call still in flight. Without that discipline the property fails
(see the counterexample), because the `handleSendMessage` guard never
consults the in-flight flag. -/
theorem c3_single_flight_pending_invariant (s : Baza.AppState)
    (h : Baza.SReachable s) :
    Baza.pendingCount s.messages ≤ 1
    ∧ ∀ m ∈ s.messages, m.status = some Baza.Status.pending →
        m.role = Baza.Role.model ∧ ∃ p ∈ s.inflight, m.id = p.2 := by
  have hinv := Baza.sreachable_inv s h
  unfold Baza.Inv at hinv
  rcases hs : s.inflight with _ | ⟨⟨u, mid⟩, _ | ⟨q, rest⟩⟩ <;> rw [hs] at hinv
  · constructor
    · have h0 : Baza.pendingCount s.messages = 0 := by
        unfold Baza.pendingCount
        rw [List.countP_eq_zero]
        intro a ha
        simpa using hinv.2 a ha
      omega
    · intro m hm hp
      exact absurd hp (hinv.2 m hm)
  · obtain ⟨-, hcount, hrole, hpend⟩ := hinv
    constructor
    · unfold Baza.pendingCount
      calc s.messages.countP (fun m => m.status = some Baza.Status.pending)
          ≤ s.messages.countP (fun m => m.id = mid) := by
            apply List.countP_mono_left
            intro a ha hp
            simpa using hpend a ha (by simpa using hp)
        _ ≤ 1 := hcount
    · intro m hm hp
      have hid := hpend m hm hp
      exact ⟨hrole m hm hid, ⟨(u, mid), List.mem_cons_self _ _, hid⟩⟩
  · exact hinv.elim

/-- Witness for C3: the fresh session is reachable and satisfies the
pending bound. -/
theorem c3_single_flight_pending_invariant_witness :
    Baza.SReachable Baza.initState
    ∧ Baza.pendingCount Baza.initState.messages ≤ 1 :=
  ⟨Relation.ReflTransGen.refl,
   (c3_single_flight_pending_invariant Baza.initState
     Relation.ReflTransGen.refl).1⟩

/-- Counterexample to C3: without the single-flight discipline the code
permits a second send step — e.g. a suggested-question click — while
the first call is still in flight, because the `handleSendMessage`
guard does not consult the flag; after the two steps the session holds
two pending placeholders at once. -/
theorem c3_counterexample_two_pending_placeholders :
    Baza.Step ⟨[], false, []⟩
      ⟨[Baza.mkUserMessage "u1" "a" none 0, Baza.mkModelPlaceholder "m1" 0],
       true, [("u1", "m1")]⟩
    ∧ Baza.Step
        ⟨[Baza.mkUserMessage "u1" "a" none 0, Baza.mkModelPlaceholder "m1" 0],
         true, [("u1", "m1")]⟩
        ⟨[Baza.mkUserMessage "u1" "a" none 0, Baza.mkModelPlaceholder "m1" 0,
          Baza.mkUserMessage "u2" "b" none 1, Baza.mkModelPlaceholder "m2" 1],
         true, [("u2", "m2"), ("u1", "m1")]⟩
    ∧ Baza.pendingCount
        [Baza.mkUserMessage "u1" "a" none 0, Baza.mkModelPlaceholder "m1" 0,
         Baza.mkUserMessage "u2" "b" none 1, Baza.mkModelPlaceholder "m2" 1]
      = 2 := by
  refine ⟨?_, ?_, by decide⟩
  · exact Baza.Step.send ⟨[], false, []⟩ "a" none "u1" "m1" 0
      (by decide) (by decide) (by decide) (by decide)
  · exact Baza.Step.send
      ⟨[Baza.mkUserMessage "u1" "a" none 0, Baza.mkModelPlaceholder "m1" 0],
       true, [("u1", "m1")]⟩ "b" none "u2" "m2" 1
      (by decide) (by decide) (by decide) (by decide)
